import Mathlib

/-!
Shallow embedding of the page4u-mcp request/response bridging layer
(`src/index.ts`): the envelope codec inside `apiRequest`, the authenticated
transport gate, the deploy_page archive bundling, the update_page field
filtering, and the result-rendering procedures of the tool handlers.

JavaScript values that a handler inspects dynamically (the decoded response
body) are modelled by an explicit `Json` type; JS truthiness, member access
and template-literal stringification are modelled by `jsTruthy`, `jsMember`
and `displayJson`.
-/

/-- A JSON value as delivered by `res.json()`.  Numbers are modelled as
integers (no claim depends on non-integral numbers). -/
inductive Json where
  | jnull : Json
  | jbool : Bool → Json
  | jnum : Int → Json
  | jstr : String → Json
  | jarr : List Json → Json
  | jobj : List (String × Json) → Json
deriving Repr

/-- Property read on a JSON object: `none` models JS `undefined`. -/
def getField (j : Json) (k : String) : Option Json :=
  match j with
  | .jobj fs => List.lookup k fs
  | _ => none

/-- JS truthiness of a possibly-undefined value (`if (x)`). -/
def jsTruthy (o : Option Json) : Bool :=
  match o with
  | none => false
  | some .jnull => false
  | some (.jbool b) => b
  | some (.jnum n) => n != 0
  | some (.jstr s) => s != ""
  | some (.jarr _) => true
  | some (.jobj _) => true

/-- JS member access `v.k` on an already-defined, non-null value: objects
yield the property (or `undefined`), primitives box to a wrapper with no own
properties, so the access yields `undefined`. -/
def jsMember (v : Json) (k : String) : Option Json :=
  match v with
  | .jobj fs => List.lookup k fs
  | _ => none

mutual
/-- Template-literal stringification `String(v)` of a JSON value. -/
def displayJson : Json → String
  | .jnull => "null"
  | .jbool b => cond b "true" "false"
  | .jnum n => toString n
  | .jstr s => s
  | .jobj _ => "[object Object]"
  | .jarr xs => displayList xs

/-- `Array.prototype.join(",")`, with `null` elements rendered empty. -/
def displayList : List Json → String
  | [] => ""
  | [Json.jnull] => ""
  | [x] => displayJson x
  | Json.jnull :: xs => "," ++ displayList xs
  | x :: xs => displayJson x ++ "," ++ displayList xs
end

/-- Stringification of a possibly-undefined value inside a template literal. -/
def jsToDisplay (o : Option Json) : String :=
  match o with
  | none => "undefined"
  | some v => displayJson v

/-- Outcome of `apiRequest`'s response handling (lines 56-62 of
`src/index.ts`): the body is cast, `json.success` is tested for truthiness,
and on the falsy branch `json.error.code` / `json.error.message` are read. -/
inductive DecodeOutcome where
  | success : Json → DecodeOutcome
  | apiError : String → DecodeOutcome
  | typeError : DecodeOutcome
deriving Repr

/-- The envelope handling of `apiRequest`: `if (!json.success) throw new
Error(cde + ": " + msg); return json;`.  Reading `.code` off a missing or
null `error` property is a runtime `TypeError`. -/
def decode (j : Json) : DecodeOutcome :=
  if jsTruthy (getField j "success") then .success j
  else
    match getField j "error" with
    | none => .typeError
    | some .jnull => .typeError
    | some e =>
        .apiError (jsToDisplay (jsMember e "code") ++ ": " ++
                   jsToDisplay (jsMember e "message"))

/-- A tool handler seen from the decode outcome: on success it renders a text
result from the returned body, on any thrown error the call produces that
error and no text. -/
def runHandler (o : DecodeOutcome) (render : Json → String) :
    Except String String :=
  match o with
  | .success j => Except.ok (render j)
  | .apiError m => Except.error m
  | .typeError => Except.error "TypeError"

/-- The Success arm of the envelope as the spec defines it:
`Success(data: T, total?)` with the tag true and `data` present. -/
def successArm (j : Json) : Prop :=
  getField j "success" = some (.jbool true) ∧ (getField j "data").isSome = true

/-- The Failure arm of the envelope as the spec defines it:
tag false and an error object with string `code` and `message`. -/
def failureArm (j : Json) (c m : String) : Prop :=
  getField j "success" = some (.jbool false) ∧
  ∃ fs, getField j "error" = some (.jobj fs) ∧
    List.lookup "code" fs = some (.jstr c) ∧
    List.lookup "message" fs = some (.jstr m)

/-- A decode outcome that aborts the call (anything but the Success return). -/
def failsCall (o : DecodeOutcome) : Bool :=
  match o with
  | .success _ => false
  | _ => true

/-- Substring containment, stated over the character lists. -/
def containsStr (s sub : String) : Prop :=
  ∃ p q : List Char, s.data = p ++ sub.data ++ q

/-! ## Authenticated transport (`apiRequest`, lines 30-63) -/

/-- Byte payload provenance: `Buffer.from(s, "utf-8")` or
`Buffer.from(s, "base64")`. -/
inductive FileData where
  | utf8 : String → FileData
  | base64 : String → FileData
deriving Repr, DecidableEq

/-- One `assets` element of deploy_page. -/
structure Asset where
  filename : String
  content : String
deriving Repr, DecidableEq

/-- A bundled payload: either the bare HTML blob or the zip buffer. -/
inductive FilePayload where
  | singleHtml : String → FilePayload
  | zipArchive : List (String × FileData) → FilePayload
deriving Repr, DecidableEq

/-- A multipart form value: a file blob (with upload filename and MIME type)
or a plain string field. -/
inductive FormValue where
  | fileBlob : String → String → FilePayload → FormValue
  | str : String → FormValue
deriving Repr, DecidableEq

/-- Request body alternatives of `apiRequest`. -/
inductive Body where
  | form : List (String × FormValue) → Body
  | record : List (String × String) → Body
deriving Repr, DecidableEq

/-- What `apiRequest` does before any response arrives: either it throws the
configuration error (no fetch), or it issues exactly one HTTP request. -/
inductive RequestAction where
  | configError : String → RequestAction
  | httpRequest : String → String → List (String × String) → Option Body →
      RequestAction
deriving Repr, DecidableEq

/-- The message thrown when the API key is missing (lines 36-38). -/
def apiKeyMessage : String :=
  "PAGE4U_API_KEY environment variable is not set. Get your key at https://page4u.ai/dashboard/settings"

/-- `const API_KEY = process.env.PAGE4U_API_KEY ?? ""` (line 14). -/
def resolveApiKey (env : Option String) : String := env.getD ""

/-- The request-building phase of `apiRequest` (lines 35-55): the key check,
URL assembly under the fixed `/api/v1` prefix, headers, and the body
encoding choice (FormData as-is, JSON otherwise). -/
def apiRequest (apiKey baseUrl method path : String) (body : Option Body) :
    RequestAction :=
  if apiKey == "" then .configError apiKeyMessage
  else
    let url := baseUrl ++ "/api/v1" ++ path
    let hdrs := [("Authorization", "Bearer " ++ apiKey),
                 ("X-Page4U-Client", "mcp")]
    match body with
    | some (.form es) => .httpRequest method url hdrs (some (.form es))
    | some (.record fs) =>
        .httpRequest method url (hdrs ++ [("Content-Type", "application/json")])
          (some (.record fs))
    | none => .httpRequest method url hdrs none

/-! ## URL encoding (`encodeURIComponent` and `URLSearchParams`) -/

/-- UTF-8 bytes of a code point, as naturals. -/
def utf8Bytes (n : Nat) : List Nat :=
  if n < 128 then [n]
  else if n < 2048 then [192 + n / 64, 128 + n % 64]
  else if n < 65536 then [224 + n / 4096, 128 + n / 64 % 64, 128 + n % 64]
  else [240 + n / 262144, 128 + n / 4096 % 64, 128 + n / 64 % 64, 128 + n % 64]

/-- Upper-case hexadecimal digit. -/
def hexDigitChar (k : Nat) : Char :=
  if k < 10 then Char.ofNat (48 + k) else Char.ofNat (55 + k)

/-- Percent-escape of one byte. -/
def pctByte (b : Nat) : String :=
  String.mk ['%', hexDigitChar (b / 16), hexDigitChar (b % 16)]

/-- Characters `encodeURIComponent` leaves intact. -/
def uriUnreserved (c : Char) : Bool :=
  c.isAlphanum || c == '-' || c == '_' || c == '.' || c == '!' || c == '~' ||
  c == '*' || c == Char.ofNat 39 || c == '(' || c == ')'

/-- JS `encodeURIComponent`. -/
def encodeURIComponent (s : String) : String :=
  String.join (s.data.map (fun c =>
    if uriUnreserved c then String.singleton c
    else String.join ((utf8Bytes c.toNat).map pctByte)))

/-- Characters the `application/x-www-form-urlencoded` serializer keeps. -/
def formUnreserved (c : Char) : Bool :=
  c.isAlphanum || c == '*' || c == '-' || c == '.' || c == '_'

/-- One character of `URLSearchParams.toString()` output. -/
def formEncodeChar (c : Char) : String :=
  if c == ' ' then "+"
  else if formUnreserved c then String.singleton c
  else String.join ((utf8Bytes c.toNat).map pctByte)

/-- `URLSearchParams.toString()` over an ordered parameter list. -/
def searchParamsToString (ps : List (String × String)) : String :=
  String.intercalate "&" (ps.map (fun p =>
    String.join (p.1.data.map formEncodeChar) ++ "=" ++
    String.join (p.2.data.map formEncodeChar)))

/-! ## Archive Bundler (deploy_page handler, lines 164-206) -/

/-- adm-zip `addFile`: when an entry with the same name already exists its
data is replaced in place (last write wins), otherwise a new entry is
appended. -/
def addFile (entries : List (String × FileData)) (name : String)
    (content : FileData) : List (String × FileData) :=
  if ∃ e ∈ entries, e.1 = name then
    entries.map (fun e => if e.1 = name then (name, content) else e)
  else entries ++ [(name, content)]

/-- Zip-entry lookup by name: the data of the first entry carrying the
name. -/
def lookupEntry (n : String) : List (String × FileData) → Option FileData
  | [] => none
  | e :: es => if e.1 = n then some e.2 else lookupEntry n es

/-- The zip built by the deploy handler: `index.html` from the UTF-8 HTML
first, then each asset's base64-decoded content at its given path
(lines 169-173). -/
def bundle (html : String) (assets : List Asset) : List (String × FileData) :=
  assets.foldl (fun acc a => addFile acc a.filename (.base64 a.content))
    [("index.html", .utf8 html)]

/-- The full write sequence the deploy handler performs on the zip, in
order. -/
def bundleWrites (html : String) (assets : List Asset) :
    List (String × FileData) :=
  ("index.html", .utf8 html) :: assets.map (fun a => (a.filename, .base64 a.content))

/-- `assets && assets.length > 0` (line 167). -/
def assetsNonempty (assets : Option (List Asset)) : Bool :=
  match assets with
  | some l => !l.isEmpty
  | none => false

/-- The `file` part appended to the form: the zip buffer named `site.zip`
when assets were supplied, else the bare HTML named `index.html`
(lines 167-186). -/
def deployFilePart (html : String) (assets : Option (List Asset)) : FormValue :=
  if assetsNonempty assets then
    .fileBlob "site.zip" "application/zip" (.zipArchive (bundle html (assets.getD [])))
  else
    .fileBlob "index.html" "text/html" (.singleHtml html)

/-- `if (x) formData.append(name, x)`: a JS-truthy string appends a field,
`undefined` or `""` appends nothing (lines 188-190). -/
def optFormField (name : String) (o : Option String) :
    List (String × FormValue) :=
  match o with
  | some s => if s == "" then [] else [(name, .str s)]
  | none => []

/-- The multipart form the deploy_page handler builds (lines 165-190). -/
def deployForm (html : String) (assets : Option (List Asset))
    (slug locale whatsapp : Option String) : List (String × FormValue) :=
  ("file", deployFilePart html assets) ::
    (optFormField "slug" slug ++ optFormField "locale" locale ++
     optFormField "whatsapp" whatsapp)

/-! ## update_page handler (lines 231-250) -/

/-- The optional metadata fields of update_page, in schema order; `none`
models an argument that was not provided (`undefined`). -/
structure UpdateFields where
  businessName : Option String := none
  headline : Option String := none
  description : Option String := none
  phone : Option String := none
  email : Option String := none
  whatsapp : Option String := none
  primaryColor : Option String := none
  secondaryColor : Option String := none
  googleAnalyticsId : Option String := none
  facebookPixelId : Option String := none
deriving Repr, DecidableEq

/-- `Object.entries(fields)` of the rest object, in declaration order. -/
def fieldList (f : UpdateFields) : List (String × Option String) :=
  [("businessName", f.businessName), ("headline", f.headline),
   ("description", f.description), ("phone", f.phone), ("email", f.email),
   ("whatsapp", f.whatsapp), ("primaryColor", f.primaryColor),
   ("secondaryColor", f.secondaryColor),
   ("googleAnalyticsId", f.googleAnalyticsId),
   ("facebookPixelId", f.facebookPixelId)]

/-- The body built by `if (v !== undefined) body[k] = v` (lines 233-236):
exactly the defined entries, empty strings included. -/
def updateEntries (f : UpdateFields) : List (String × String) :=
  (fieldList f).filterMap (fun p => p.2.map (fun v => (p.1, v)))

/-- What a handler does with the request: short-circuit with a text result,
or hand a request to `apiRequest`. -/
inductive HandlerAction where
  | noCall : String → HandlerAction
  | apiCall : String → String → List (String × String) → HandlerAction
deriving Repr, DecidableEq

/-- The update_page handler up to its network call (lines 231-245): empty
body short-circuits with "No fields to update.", otherwise a PUT to
`/pages/slug` carrying exactly the defined fields. -/
def updatePage (slug : String) (f : UpdateFields) : HandlerAction :=
  let body := updateEntries f
  if body.isEmpty then .noCall "No fields to update."
  else .apiCall "PUT" ("/pages/" ++ encodeURIComponent slug) body

/-! ## list_pages and get_leads result rendering -/

/-- One page record as the list_pages handler reads it. -/
structure PageRec where
  slug : String
  businessName : String
  status : String
  createdAt : String
deriving Repr, DecidableEq

/-- One line of the list_pages rendering (lines 98-101); `fmtDate` stands
for `new Date(x).toLocaleDateString()`, a locale-dependent external
function. -/
def formatPage (fmtDate : String → String) (p : PageRec) : String :=
  "- " ++ p.slug ++ " | " ++
  (if p.businessName == "" then "(no name)" else p.businessName) ++ " | " ++
  p.status ++ " | " ++ fmtDate p.createdAt

/-- The list_pages result text for a decoded success payload
(lines 94-104). -/
def renderPages (fmtDate : String → String) (data : List PageRec)
    (total : Option Nat) : String :=
  if data.isEmpty then "No pages found."
  else
    toString (total.getD data.length) ++ " page(s):\n\n" ++
    String.intercalate "\n" (data.map (formatPage fmtDate))

/-- One lead record as the get_leads handler reads it; `none` models an
absent optional field. -/
structure Lead where
  name : Option String := none
  phone : Option String := none
  email : Option String := none
  message : Option String := none
  status : String
  createdAt : String
deriving Repr, DecidableEq

/-- `if (l.x) parts.push(label + l.x)`: pushed only when the field is a
defined, non-empty string (lines 306-310). -/
def optPart (label : String) (o : Option String) : List String :=
  match o with
  | some s => if s == "" then [] else [label ++ s]
  | none => []

/-- The parts pushed for one lead, in push order (lines 305-313). -/
def leadParts (fmtDate : String → String) (l : Lead) : List String :=
  optPart "Name: " l.name ++ optPart "Phone: " l.phone ++
  optPart "Email: " l.email ++ optPart "Message: " l.message ++
  ["Status: " ++ l.status, "Date: " ++ fmtDate l.createdAt]

/-- One formatted line of the get_leads rendering. -/
def formatLead (fmtDate : String → String) (l : Lead) : String :=
  String.intercalate " | " (leadParts fmtDate l)

/-- The get_leads result text for a decoded success payload
(lines 301-318). -/
def renderLeads (fmtDate : String → String) (slug : String)
    (data : List Lead) (total : Option Nat) : String :=
  if data.isEmpty then "No leads found for \"" ++ slug ++ "\"."
  else
    toString (total.getD data.length) ++ " lead(s) for \"" ++ slug ++
    "\":\n\n" ++ String.intercalate "\n" (data.map (formatLead fmtDate))

/-- The query parameters get_leads sets (lines 285-287): a truthy status
and a truthy (non-zero) limit. -/
def leadsQuery (status : Option String) (limit : Option Nat) :
    List (String × String) :=
  (match status with
   | some s => if s == "" then [] else [("status", s)]
   | none => []) ++
  (match limit with
   | some n => if n == 0 then [] else [("limit", toString n)]
   | none => [])

/-- The request path get_leads builds (lines 285-299). -/
def leadsRequestPath (slug : String) (status : Option String)
    (limit : Option Nat) : String :=
  let qs := searchParamsToString (leadsQuery status limit)
  "/pages/" ++ encodeURIComponent slug ++ "/leads" ++
    (if qs == "" then "" else "?" ++ qs)

/-! ## Helper lemmas about `addFile` and the bundling fold -/

theorem lookupEntry_nil (n : String) : lookupEntry n [] = none := rfl

theorem lookupEntry_cons (n : String) (e : String × FileData)
    (es : List (String × FileData)) :
    lookupEntry n (e :: es) =
      if e.1 = n then some e.2 else lookupEntry n es := rfl

theorem lookupEntry_append (n : String) (l₁ l₂ : List (String × FileData)) :
    lookupEntry n (l₁ ++ l₂) =
      (lookupEntry n l₁).orElse (fun _ => lookupEntry n l₂) := by
  induction l₁ with
  | nil => simp [lookupEntry, Option.orElse]
  | cons e l ih =>
      by_cases hn : e.1 = n
      · simp [lookupEntry_cons, hn, Option.orElse]
      · simp [lookupEntry_cons, hn, ih]

theorem lookupEntry_eq_none (l : List (String × FileData)) (name : String)
    (h : ¬ ∃ e ∈ l, e.1 = name) : lookupEntry name l = none := by
  induction l with
  | nil => rfl
  | cons e l ih =>
      have hb : ¬ e.1 = name := fun hc => h ⟨e, List.mem_cons_self e l, hc⟩
      have h' : ¬ ∃ x ∈ l, x.1 = name := fun ⟨x, hx, hx1⟩ =>
        h ⟨x, List.mem_cons_of_mem e hx, hx1⟩
      simp [lookupEntry_cons, hb, ih h']

theorem lookupEntry_replace_eq (l : List (String × FileData)) (name : String)
    (c : FileData) (h : ∃ e ∈ l, e.1 = name) :
    lookupEntry name (l.map (fun e => if e.1 = name then (name, c) else e)) =
      some c := by
  induction l with
  | nil => exact absurd h (by simp)
  | cons e l ih =>
      by_cases hb : e.1 = name
      · simp [lookupEntry_cons, hb]
      · have h' : ∃ x ∈ l, x.1 = name := by
          rcases h with ⟨x, hx, hx1⟩
          rcases List.mem_cons.mp hx with rfl | hxl
          · exact absurd hx1 hb
          · exact ⟨x, hxl, hx1⟩
        have hne : ¬ (if e.1 = name then (name, c) else e).1 = name := by
          simp [hb]
        simp only [List.map_cons, lookupEntry_cons, if_neg hb]
        simp [hb, ih h']

theorem lookupEntry_replace_ne (l : List (String × FileData)) (name : String)
    (c : FileData) (n : String) (h : n ≠ name) :
    lookupEntry n (l.map (fun e => if e.1 = name then (name, c) else e)) =
      lookupEntry n l := by
  induction l with
  | nil => rfl
  | cons e l ih =>
      by_cases hb : e.1 = name
      · have hne : ¬ name = n := fun hc => h hc.symm
        have hen : ¬ e.1 = n := by rw [hb]; exact hne
        simp [lookupEntry_cons, hb, hne, hen, ih]
      · by_cases hn : e.1 = n
        · simp [lookupEntry_cons, hb, hn, h]
        · simp [lookupEntry_cons, hb, hn, ih]

theorem lookupEntry_addFile (l : List (String × FileData)) (name : String)
    (c : FileData) (n : String) :
    lookupEntry n (addFile l name c) =
      if n = name then some c else lookupEntry n l := by
  unfold addFile
  by_cases ha : ∃ e ∈ l, e.1 = name
  · by_cases hn : n = name
    · subst hn
      simp [ha, lookupEntry_replace_eq l n c ha]
    · simp [ha, hn, lookupEntry_replace_ne l name c n hn]
  · rw [if_neg ha, lookupEntry_append]
    by_cases hn : n = name
    · subst hn
      simp [lookupEntry_eq_none l n ha, lookupEntry_cons, Option.orElse]
    · have hnn : ¬ name = n := fun hc => hn hc.symm
      cases hl : lookupEntry n l with
      | none => simp [hl, Option.orElse, lookupEntry_cons, lookupEntry_nil, hnn, hn]
      | some v => simp [hl, Option.orElse, hn]

theorem keys_replace (l : List (String × FileData)) (name : String)
    (c : FileData) :
    (l.map (fun e => if e.1 = name then (name, c) else e)).map Prod.fst =
      l.map Prod.fst := by
  induction l with
  | nil => rfl
  | cons e l ih =>
      by_cases hb : e.1 = name
      · simp [hb, ih]
      · simp [hb, ih]

theorem mem_keys_addFile (l : List (String × FileData)) (name : String)
    (c : FileData) (n : String) :
    n ∈ (addFile l name c).map Prod.fst ↔ n = name ∨ n ∈ l.map Prod.fst := by
  unfold addFile
  by_cases ha : ∃ e ∈ l, e.1 = name
  · rw [if_pos ha, keys_replace]
    constructor
    · exact Or.inr
    · rintro (rfl | h)
      · rcases ha with ⟨e, he, hfst⟩
        have := List.mem_map_of_mem Prod.fst he
        rwa [hfst] at this
      · exact h
  · rw [if_neg ha]
    simp [List.mem_append, or_comm]

theorem nodup_keys_addFile (l : List (String × FileData)) (name : String)
    (c : FileData) (h : (l.map Prod.fst).Nodup) :
    ((addFile l name c).map Prod.fst).Nodup := by
  unfold addFile
  by_cases ha : ∃ e ∈ l, e.1 = name
  · rw [if_pos ha, keys_replace]; exact h
  · rw [if_neg ha]
    have hnot : name ∉ l.map Prod.fst := by
      intro hmem
      rcases List.mem_map.mp hmem with ⟨e, he, hfst⟩
      exact ha ⟨e, he, hfst⟩
    rw [List.map_append, List.nodup_append]
    exact ⟨h, List.nodup_singleton name, by
      simpa [List.disjoint_singleton] using hnot⟩

theorem mem_keys_foldl_addFile (ws : List (String × FileData))
    (acc : List (String × FileData)) (n : String) :
    n ∈ ((ws.foldl (fun l w => addFile l w.1 w.2) acc).map Prod.fst) ↔
      n ∈ acc.map Prod.fst ∨ n ∈ ws.map Prod.fst := by
  induction ws generalizing acc with
  | nil => simp
  | cons w ws ih =>
      simp only [List.foldl_cons, ih, mem_keys_addFile, List.map_cons,
        List.mem_cons]
      tauto

theorem nodup_keys_foldl_addFile (ws : List (String × FileData))
    (acc : List (String × FileData)) (h : (acc.map Prod.fst).Nodup) :
    (((ws.foldl (fun l w => addFile l w.1 w.2) acc)).map Prod.fst).Nodup := by
  induction ws generalizing acc with
  | nil => exact h
  | cons w ws ih =>
      exact ih _ (nodup_keys_addFile acc w.1 w.2 h)

theorem lookupEntry_foldl_addFile (ws : List (String × FileData))
    (acc : List (String × FileData)) (n : String) :
    lookupEntry n (ws.foldl (fun l w => addFile l w.1 w.2) acc) =
      (lookupEntry n ws.reverse).orElse (fun _ => lookupEntry n acc) := by
  induction ws generalizing acc with
  | nil => simp [lookupEntry, Option.orElse]
  | cons w ws ih =>
      rw [List.foldl_cons, ih, List.reverse_cons, lookupEntry_append]
      rw [lookupEntry_addFile]
      cases hr : lookupEntry n ws.reverse with
      | some v => simp [Option.orElse]
      | none =>
          by_cases hn : n = w.1
          · simp [Option.orElse, lookupEntry_cons, hn]
          · have hnn : ¬ w.1 = n := fun hc => hn hc.symm
            simp [Option.orElse, lookupEntry_cons, lookupEntry_nil, hn, hnn]

theorem bundle_eq_foldl (html : String) (assets : List Asset) :
    bundle html assets =
      ((assets.map (fun a => (a.filename, FileData.base64 a.content))).foldl
        (fun l w => addFile l w.1 w.2) [("index.html", FileData.utf8 html)]) := by
  rw [List.foldl_map]
  rfl

/-! ## Claim theorems -/

/-- C2: bundling is a deterministic function of the primary document and the
asset list: the entry names of the produced archive are exactly
index.html together with each asset's given relative path; names are not
duplicated and a colliding write is resolved by last-write-wins (the entry
holds the data of the last write with that name, the primary document being
written first). -/
theorem bundle_entry_names (html : String) (assets : List Asset) :
    (∀ n, n ∈ (bundle html assets).map Prod.fst ↔
      n = "index.html" ∨ n ∈ assets.map Asset.filename) ∧
    ((bundle html assets).map Prod.fst).Nodup ∧
    (∀ n, lookupEntry n (bundle html assets) =
      lookupEntry n (bundleWrites html assets).reverse) := by
  refine ⟨fun n => ?_, ?_, fun n => ?_⟩
  · rw [bundle_eq_foldl, mem_keys_foldl_addFile]
    simp [List.map_map, Function.comp]
  · rw [bundle_eq_foldl]
    exact nodup_keys_foldl_addFile _ _ (by simp)
  · rw [bundle_eq_foldl, lookupEntry_foldl_addFile]
    unfold bundleWrites
    rw [List.reverse_cons, lookupEntry_append]

/-- C1: deploy_page with absent or empty assets never invokes the Bundler —
the HTML is sent as a single-file payload named index.html; with one or
more assets the Bundler is always invoked and the payload is the single
archive file site.zip. -/
theorem deploy_page_bundler_gate (html : String) (assets : Option (List Asset))
    (slug locale whatsapp : Option String) :
    ((assets = none ∨ assets = some []) →
      deployForm html assets slug locale whatsapp =
        ("file", FormValue.fileBlob "index.html" "text/html"
          (.singleHtml html)) ::
        (optFormField "slug" slug ++ optFormField "locale" locale ++
         optFormField "whatsapp" whatsapp)) ∧
    (∀ l, assets = some l → l ≠ [] →
      deployForm html assets slug locale whatsapp =
        ("file", FormValue.fileBlob "site.zip" "application/zip"
          (.zipArchive (bundle html l))) ::
        (optFormField "slug" slug ++ optFormField "locale" locale ++
         optFormField "whatsapp" whatsapp)) := by
  constructor
  · rintro (rfl | rfl) <;>
      simp [deployForm, deployFilePart, assetsNonempty]
  · rintro l rfl hl
    have : l.isEmpty = false := List.isEmpty_eq_false.mpr hl
    simp [deployForm, deployFilePart, assetsNonempty, this]

/-- C1 witness: both branches of the gate at concrete calls. -/
theorem deploy_page_bundler_gate_witness :
    (deployForm "<p>x</p>" none none none none =
      ("file", FormValue.fileBlob "index.html" "text/html"
        (.singleHtml "<p>x</p>")) ::
      (optFormField "slug" none ++ optFormField "locale" none ++
       optFormField "whatsapp" none)) ∧
    (deployForm "<p>x</p>" (some [⟨"css/a.css", "Zm9v"⟩]) none none none =
      ("file", FormValue.fileBlob "site.zip" "application/zip"
        (.zipArchive (bundle "<p>x</p>" [⟨"css/a.css", "Zm9v"⟩]))) ::
      (optFormField "slug" none ++ optFormField "locale" none ++
       optFormField "whatsapp" none)) :=
  ⟨(deploy_page_bundler_gate "<p>x</p>" none none none none).1 (Or.inl rfl),
   (deploy_page_bundler_gate "<p>x</p>" (some [⟨"css/a.css", "Zm9v"⟩])
      none none none).2 _ rfl (by simp)⟩

/-- C3: an update_page call in which every optional metadata field is
undefined performs no network call and returns the fixed "No fields to
update." text. -/
theorem update_page_no_fields_short_circuit (slug : String) (f : UpdateFields)
    (h : ∀ p ∈ fieldList f, p.2 = none) :
    updatePage slug f = .noCall "No fields to update." := by
  have hempty : updateEntries f = [] := by
    unfold updateEntries
    rw [List.filterMap_eq_nil_iff]
    intro p hp
    rw [h p hp]
    rfl
  unfold updatePage
  simp [hempty]

/-- C3 witness: the all-defaults field record short-circuits. -/
theorem update_page_no_fields_short_circuit_witness :
    (∀ p ∈ fieldList {}, p.2 = none) ∧
    updatePage "home" {} = .noCall "No fields to update." :=
  ⟨by decide, update_page_no_fields_short_circuit "home" {} (by decide)⟩

/-- C6: with the credential absent the request is rejected before any
network I/O, with an error message naming the missing setting
(PAGE4U_API_KEY) and where to obtain it (the dashboard settings URL);
every operation routes its one request through `apiRequest`. -/
theorem missing_api_key_no_network (baseUrl method path : String)
    (body : Option Body) :
    apiRequest (resolveApiKey none) baseUrl method path body =
      .configError apiKeyMessage ∧
    containsStr apiKeyMessage "PAGE4U_API_KEY" ∧
    containsStr apiKeyMessage "https://page4u.ai/dashboard/settings" ∧
    (∀ m u hs b, apiRequest (resolveApiKey none) baseUrl method path body ≠
      .httpRequest m u hs b) := by
  have hcfg : apiRequest (resolveApiKey none) baseUrl method path body =
      .configError apiKeyMessage := by
    simp [apiRequest, resolveApiKey]
  refine ⟨hcfg, ?_, ?_, ?_⟩
  · exact ⟨[], " environment variable is not set. Get your key at https://page4u.ai/dashboard/settings".data, by decide⟩
  · exact ⟨"PAGE4U_API_KEY environment variable is not set. Get your key at ".data, [], by decide⟩
  · intro m u hs b hcontra
    rw [hcfg] at hcontra
    exact RequestAction.noConfusion hcontra

/-- C7: an update_page call with at least one provided field sends a PUT
whose JSON body holds exactly the provided fields: a field is in the body
with value v exactly when the caller supplied v, so an undefined field is
never sent and a provided empty string is sent. -/
theorem update_page_sends_exactly_provided (slug : String) (f : UpdateFields)
    (h : updateEntries f ≠ []) :
    updatePage slug f =
      .apiCall "PUT" ("/pages/" ++ encodeURIComponent slug)
        (updateEntries f) ∧
    (∀ k v, (k, v) ∈ updateEntries f ↔ (k, some v) ∈ fieldList f) := by
  constructor
  · unfold updatePage
    simp [List.isEmpty_eq_false.mpr h]
  · intro k v
    unfold updateEntries
    rw [List.mem_filterMap]
    constructor
    · rintro ⟨⟨k', o⟩, hp, hmap⟩
      cases o with
      | none => cases hmap
      | some w =>
          simp only [Option.map_some] at hmap
          injection hmap with hh
          rw [Prod.mk.injEq] at hh
          obtain ⟨hk, hv⟩ := hh
          subst hk
          subst hv
          exact hp
    · intro hp
      exact ⟨(k, some v), hp, rfl⟩

/-- C7 witness: a single provided field that is the empty string is sent. -/
theorem update_page_sends_exactly_provided_witness :
    (updateEntries { businessName := some "" } ≠ []) ∧
    (updatePage "shop" { businessName := some "" } =
      .apiCall "PUT" ("/pages/" ++ encodeURIComponent "shop")
        (updateEntries { businessName := some "" }) ∧
    (∀ k v, (k, v) ∈ updateEntries { businessName := some "" } ↔
      (k, some v) ∈ fieldList { businessName := some "" })) :=
  ⟨by decide,
   update_page_sends_exactly_provided "shop" { businessName := some "" }
     (by decide)⟩

/-- C8: a Success envelope with an empty data array renders the literal "No
pages found." in list_pages and the slug-specific no-leads text in
get_leads, not an empty list rendering. -/
theorem empty_results_render_fixed_text (fmtDate : String → String)
    (total : Option Nat) (slug : String) :
    renderPages fmtDate [] total = "No pages found." ∧
    renderLeads fmtDate slug [] total =
      "No leads found for \"" ++ slug ++ "\"." := by
  constructor <;> rfl

/-- C9: a Success envelope with a non-empty data array renders, in
get_leads, a header stating N lead(s) for the slug — N the envelope total
when present, else the array length — followed by exactly one formatted
line per returned lead. -/
theorem get_leads_nonempty_header (fmtDate : String → String) (slug : String)
    (data : List Lead) (total : Option Nat) (h : data ≠ []) :
    renderLeads fmtDate slug data total =
      toString (total.getD data.length) ++ " lead(s) for \"" ++ slug ++
      "\":\n\n" ++ String.intercalate "\n" (data.map (formatLead fmtDate)) ∧
    (data.map (formatLead fmtDate)).length = data.length := by
  constructor
  · unfold renderLeads
    simp [List.isEmpty_eq_false.mpr h]
  · exact List.length_map data (formatLead fmtDate)

/-- A lead with name and phone, for the C9 witness. -/
def leadA : Lead :=
  { name := some "Dana", phone := some "0501234567", status := "new",
    createdAt := "2024-01-02" }

/-- A lead with email and message, for the C9 witness. -/
def leadB : Lead :=
  { email := some "a@b.co", message := some "hi", status := "contacted",
    createdAt := "2024-01-03" }

/-- C9 witness: a backend returning 2 of 5 leads for my-bakery. -/
theorem get_leads_nonempty_header_witness :
    ([leadA, leadB] ≠ ([] : List Lead)) ∧
    (renderLeads id "my-bakery" [leadA, leadB] (some 5) =
      toString ((some 5).getD ([leadA, leadB].length)) ++
      " lead(s) for \"" ++ "my-bakery" ++ "\":\n\n" ++
      String.intercalate "\n" ([leadA, leadB].map (formatLead id)) ∧
    ([leadA, leadB].map (formatLead id)).length = [leadA, leadB].length) :=
  ⟨by decide,
   get_leads_nonempty_header id "my-bakery" [leadA, leadB] (some 5)
     (by decide)⟩

/-- C9 evaluation check: the concrete text of that witness call. -/
theorem get_leads_nonempty_header_eval :
    renderLeads id "my-bakery" [leadA, leadB] (some 5) =
      "5 lead(s) for \"my-bakery\":\n\nName: Dana | Phone: 0501234567 | Status: new | Date: 2024-01-02\nEmail: a@b.co | Message: hi | Status: contacted | Date: 2024-01-03" := by
  decide

/-- C10: an explicitly provided empty string for deploy_page's slug, locale
or whatsapp appends nothing to the multipart form — the form equals the one
built with the parameter omitted — and an empty get_leads status adds no
status query parameter to the request path. -/
theorem empty_string_params_equal_omitted :
    (∀ html assets locale whatsapp,
      deployForm html assets (some "") locale whatsapp =
        deployForm html assets none locale whatsapp) ∧
    (∀ html assets slug whatsapp,
      deployForm html assets slug (some "") whatsapp =
        deployForm html assets slug none whatsapp) ∧
    (∀ html assets slug locale,
      deployForm html assets slug locale (some "") =
        deployForm html assets slug locale none) ∧
    (∀ slug limit, leadsRequestPath slug (some "") limit =
      leadsRequestPath slug none limit) := by
  refine ⟨?_, ?_, ?_, ?_⟩ <;> intros <;>
    simp [deployForm, optFormField, leadsRequestPath, leadsQuery]

/-- C4: on a Failure-arm envelope the call terminates with an error whose
message contains both the code and the message; the data field is never
interpreted (the result is the same for every data value) and no result
text is produced. -/
theorem failure_envelope_surfaces_code_and_message (j : Json) (c m : String)
    (h : failureArm j c m) (render : Json → String) :
    runHandler (decode j) render = .error (c ++ ": " ++ m) ∧
    containsStr (c ++ ": " ++ m) c ∧ containsStr (c ++ ": " ++ m) m := by
  obtain ⟨hs, fs, herr, hc, hm⟩ := h
  have hdec : decode j = .apiError (c ++ ": " ++ m) := by
    unfold decode
    rw [hs, herr]
    simp [jsTruthy, jsMember, hc, hm, jsToDisplay, displayJson]
  refine ⟨by rw [hdec]; rfl, ⟨[], (": " ++ m).data, ?_⟩,
    ⟨(c ++ ": ").data, [], ?_⟩⟩
  · simp [String.data_append]
  · simp [String.data_append]

/-- A concrete Failure envelope, with a data field, for the C4 witness. -/
def failureEnvelope : Json :=
  Json.jobj [("success", Json.jbool false),
    ("error", Json.jobj [("code", Json.jstr "NOT_FOUND"),
      ("message", Json.jstr "page missing")]),
    ("data", Json.jnull)]

/-- C4 witness: the concrete failure envelope aborts with code and message
in the error. -/
theorem failure_envelope_surfaces_code_and_message_witness :
    failureArm failureEnvelope "NOT_FOUND" "page missing" ∧
    (runHandler (decode failureEnvelope) (fun _ => "unused") =
      .error ("NOT_FOUND" ++ ": " ++ "page missing") ∧
    containsStr ("NOT_FOUND" ++ ": " ++ "page missing") "NOT_FOUND" ∧
    containsStr ("NOT_FOUND" ++ ": " ++ "page missing") "page missing") := by
  have hArm : failureArm failureEnvelope "NOT_FOUND" "page missing" :=
    ⟨rfl, [("code", Json.jstr "NOT_FOUND"),
      ("message", Json.jstr "page missing")], rfl, rfl, rfl⟩
  exact ⟨hArm, failure_envelope_surfaces_code_and_message failureEnvelope
    "NOT_FOUND" "page missing" hArm (fun _ => "unused")⟩

/-- A response body matching neither envelope arm: tagged true but with no
data field. -/
def malformedEnvelope : Json := Json.jobj [("success", Json.jbool true)]

/-- C5 counterexample: a body matching neither the Success arm nor the
Failure arm is returned as the Success arm by the code — no ProtocolError
exists and decoding does not fail. -/
theorem malformed_envelope_not_rejected :
    (¬ successArm malformedEnvelope) ∧
    (∀ c m, ¬ failureArm malformedEnvelope c m) ∧
    decode malformedEnvelope = .success malformedEnvelope := by
  refine ⟨?_, ?_, rfl⟩
  · rintro ⟨-, h2⟩
    have hdat : getField malformedEnvelope "data" = none := rfl
    rw [hdat] at h2
    exact Bool.noConfusion h2
  · intro c m
    rintro ⟨h1, -⟩
    have hsuc : getField malformedEnvelope "success" =
      some (Json.jbool true) := rfl
    rw [hsuc] at h1
    injection h1 with h1
    injection h1 with h1
    exact Bool.noConfusion h1

/-- C5 (amended): malformed envelopes are not detected: any body whose
success field is truthy is returned as the Success arm (data present or
not), and any body whose success field is falsy or absent aborts the call
through the Failure handling (an ApiError string, or an untyped runtime
TypeError when the error object is missing) — never through a dedicated
ProtocolError. -/
theorem decode_malformed_behavior (j : Json) :
    (jsTruthy (getField j "success") = true → decode j = .success j) ∧
    (jsTruthy (getField j "success") = false →
      failsCall (decode j) = true) := by
  constructor
  · intro h
    unfold decode
    simp [h]
  · intro h
    unfold decode
    rw [if_neg (by simp [h])]
    split <;> rfl

/-- C5 witness: both behaviors at concrete malformed bodies. -/
theorem decode_malformed_behavior_witness :
    (jsTruthy (getField malformedEnvelope "success") = true ∧
      decode malformedEnvelope = .success malformedEnvelope) ∧
    (jsTruthy (getField (Json.jobj []) "success") = false ∧
      failsCall (decode (Json.jobj [])) = true) :=
  ⟨⟨rfl, (decode_malformed_behavior malformedEnvelope).1 rfl⟩,
   ⟨rfl, (decode_malformed_behavior (Json.jobj [])).2 rfl⟩⟩
